import Mathlib

/-!
# Verification of agent-memory-server claims

Shallow embedding of the parts of `redis-developer/agent-memory-server`
that the claims concern:

* `src/long_term_memory.py` — `search_messages` (query construction against
  the Redis vector index, result parsing);
* `src/models.py` — `MODEL_CONFIGS`, `get_model_config`,
  `AnthropicClientWrapper.create_embedding`;
* `src/agent_memory_server/extraction.py` — `extract_entities`,
  `extract_topics_llm`, `extract_topics_bertopic`,
  `extract_discrete_memories`.

Python floats (vector distances, probabilities) are modelled as rationals
(`ℚ`): only ordering and comparison of distances matter to the claims.
External services (the Redis search engine, the LLM, the NER pipeline)
are modelled as explicit parameters; the Redis engine's documented
semantics (sort by the yielded distance, range filter, paging) are
embedded as an executable function.
-/

namespace AgentMemory

/-! ## Search: `src/long_term_memory.py` -/

/-- A parsed search hit (`RedisearchResult` in `src/models.py`). -/
structure RedisearchResult where
  role : String
  content : String
  dist : ℚ
deriving DecidableEq, Repr

/-- `SearchResults` in `src/models.py`. -/
structure SearchResults where
  docs : List RedisearchResult
  total : Nat
deriving DecidableEq, Repr

/-- A document stored in the Redis index, with `dist` the vector distance
between its stored embedding and the query embedding (the value Redis
yields as `dist`). -/
structure StoredDoc where
  role : String
  content : String
  dist : ℚ
deriving DecidableEq, Repr

/-- A raw document as returned by the Redis client: any of the requested
return fields may be absent, which `search_messages` guards with
`hasattr`. -/
structure RawDoc where
  roleField : Option String
  contentField : Option String
  distField : Option ℚ
deriving DecidableEq, Repr

/-- The two query shapes `search_messages` builds: a KNN query
(`[KNN limit @vector $vec AS dist]`) or a vector-range query
(`@vector:[VECTOR_RANGE $radius $vec]`). -/
inductive RedisQuery where
  | knn (k : Nat)
  | range (radius : ℚ)
deriving DecidableEq, Repr

/-- Query construction in `search_messages`
(`if distance_threshold and distance_threshold is not Unset`): the
threshold is used only when it is supplied *and* truthy, i.e. nonzero;
a supplied threshold of `0` falls through to the KNN branch. -/
def buildQuery (distance_threshold : Option ℚ) (limit : Nat) : RedisQuery :=
  match distance_threshold with
  | some v => if v ≠ 0 then .range v else .knn limit
  | none => .knn limit

/-- Comparison used to order stored documents by distance. -/
def distLE (a b : StoredDoc) : Prop := a.dist ≤ b.dist

instance : DecidableRel distLE := fun a b => inferInstanceAs (Decidable (a.dist ≤ b.dist))

instance : IsTotal StoredDoc distLE := ⟨fun a b => le_total a.dist b.dist⟩

instance : IsTrans StoredDoc distLE := ⟨fun _ _ _ h h' => le_trans h h'⟩

/-- The Redis engine's documented behaviour for the queries
`search_messages` issues, with `SORTBY dist ASC` and `LIMIT 0 limit`
(the `.sort_by("dist", asc=True).paging(0, limit)` clauses): a KNN query
returns the `k` nearest documents; a range query returns the documents
within `radius`; both are sorted ascending by `dist` and capped at
`limit` by paging. -/
def redisSearch (store : List StoredDoc) (q : RedisQuery) (limit : Nat) :
    List StoredDoc :=
  match q with
  | .knn k => (((store.insertionSort distLE).take k).take limit)
  | .range radius =>
      (((store.filter fun d => d.dist ≤ radius).insertionSort distLE).take limit)

/-- The raw document the Redis client hands back for a stored hit: all
three requested return fields are present. -/
def toRawDoc (d : StoredDoc) : RawDoc :=
  { roleField := some d.role, contentField := some d.content, distField := some d.dist }

/-- The parsing loop of `search_messages`: keep exactly the documents
that have all of `role`, `content` and `dist`. -/
def parseDocs : List RawDoc → List RedisearchResult
  | [] => []
  | d :: rest =>
    match d.roleField, d.contentField, d.distField with
    | some r, some c, some x => { role := r, content := c, dist := x } :: parseDocs rest
    | _, _, _ => parseDocs rest

/-- `search_messages` (src/long_term_memory.py): build the query from the
optional `distance_threshold`, run it against the index, parse the raw
documents. `total` is `getattr(raw_results, "total", len(results))`,
here the engine's matched-document count for the returned page. -/
def search_messages (store : List StoredDoc) (distance_threshold : Option ℚ)
    (limit : Nat) : SearchResults :=
  let raw := (redisSearch store (buildQuery distance_threshold limit) limit).map toRawDoc
  let results := parseDocs raw
  { docs := results, total := raw.length }

/-! ## Model configuration: `src/models.py` -/

/-- `ModelProvider` in `src/models.py`. -/
inductive ModelProvider where
  | openai
  | anthropic
deriving DecidableEq, Repr

/-- `ModelConfig` in `src/models.py`. -/
structure ModelConfig where
  provider : ModelProvider
  name : String
  max_tokens : Nat
  embedding_dimensions : Nat := 1536
deriving DecidableEq, Repr

/-- The `MODEL_CONFIGS` dictionary in `src/models.py`, as an association
list in declaration order. -/
def MODEL_CONFIGS : List (String × ModelConfig) :=
  [ ("gpt-3.5-turbo", ⟨.openai, "gpt-3.5-turbo", 4096, 1536⟩),
    ("gpt-3.5-turbo-16k", ⟨.openai, "gpt-3.5-turbo-16k", 16384, 1536⟩),
    ("gpt-4", ⟨.openai, "gpt-4", 8192, 1536⟩),
    ("gpt-4-32k", ⟨.openai, "gpt-4-32k", 32768, 1536⟩),
    ("gpt-4o", ⟨.openai, "gpt-4o", 128000, 1536⟩),
    ("gpt-4o-mini", ⟨.openai, "gpt-4o-mini", 128000, 1536⟩),
    ("o1", ⟨.openai, "o1", 200000, 1536⟩),
    ("o1-mini", ⟨.openai, "o1-mini", 128000, 1536⟩),
    ("o3-mini", ⟨.openai, "o3-mini", 200000, 1536⟩),
    ("text-embedding-ada-002", ⟨.openai, "text-embedding-ada-002", 8191, 1536⟩),
    ("text-embedding-3-small", ⟨.openai, "text-embedding-3-small", 8191, 1536⟩),
    ("text-embedding-3-large", ⟨.openai, "text-embedding-3-large", 8191, 3072⟩),
    ("claude-3-opus-20240229", ⟨.anthropic, "claude-3-opus-20240229", 200000, 1536⟩),
    ("claude-3-sonnet-20240229", ⟨.anthropic, "claude-3-sonnet-20240229", 200000, 1536⟩),
    ("claude-3-haiku-20240307", ⟨.anthropic, "claude-3-haiku-20240307", 200000, 1536⟩),
    ("claude-3-5-sonnet-20240620", ⟨.anthropic, "claude-3-5-sonnet-20240620", 200000, 1536⟩),
    ("claude-3-7-sonnet-20250219", ⟨.anthropic, "claude-3-7-sonnet-20250219", 200000, 1536⟩),
    ("claude-3-5-sonnet-20241022", ⟨.anthropic, "claude-3-5-sonnet-20241022", 200000, 1536⟩),
    ("claude-3-5-haiku-20241022", ⟨.anthropic, "claude-3-5-haiku-20241022", 200000, 1536⟩),
    ("claude-3-7-sonnet-latest", ⟨.anthropic, "claude-3-7-sonnet-20250219", 200000, 1536⟩),
    ("claude-3-5-sonnet-latest", ⟨.anthropic, "claude-3-5-sonnet-20241022", 200000, 1536⟩),
    ("claude-3-5-haiku-latest", ⟨.anthropic, "claude-3-5-haiku-20241022", 200000, 1536⟩),
    ("claude-3-opus-latest", ⟨.anthropic, "claude-3-opus-20240229", 200000, 1536⟩) ]

/-- The configuration stored under `"gpt-4o-mini"`, the fallback of
`get_model_config`. -/
def gpt4oMiniConfig : ModelConfig := ⟨.openai, "gpt-4o-mini", 128000, 1536⟩

/-- `get_model_config` (src/models.py): return the named configuration
when present; otherwise log a warning and return
`MODEL_CONFIGS["gpt-4o-mini"]`. -/
def get_model_config (model_name : String) : ModelConfig :=
  match MODEL_CONFIGS.lookup model_name with
  | some cfg => cfg
  | none => gpt4oMiniConfig

/-! ## Anthropic client: `src/models.py` -/

namespace AnthropicClientWrapper

/-- `AnthropicClientWrapper.create_embedding` (src/models.py): the body
is a single `raise NotImplementedError(...)`, modelled as `Except.error`
with the raised message. -/
def create_embedding (query_vec : List String) : Except String (List (List ℚ)) :=
  Except.error
    "Anthropic does not provide an embedding API. Please use OpenAI for embeddings."

end AnthropicClientWrapper

/-! ## Entity extraction: `extract_entities` in
`src/agent_memory_server/extraction.py` -/

/-- `result["word"].startswith("##")`: the first two characters are
`"##"`. (Python's `startswith` slices by characters; `String.take`
does the same and, unlike `String.startsWith`, evaluates inside the
kernel.) -/
def isContinuation (w : String) : Bool := w.take 2 == "##"

/-- The token-grouping loop of `extract_entities`. The Python loop keeps
`current_entity` as a list of string pieces of which only the joined
string and list-emptiness are ever observed (`"".join(current_entity)`
and `if current_entity:`), so the state is carried here as
`Option String`: `none` for the empty list, `some s` for a list whose
pieces join to `s`. A token starting with `"##"` appends its remainder
(`word[2:]`) to the current entity; any other token flushes the current
entity (when the list is non-empty) and starts a new one; the trailing
entity is flushed after the loop. -/
def groupEntities : List String → Option String → List String
  | [], none => []
  | [], some s => [s]
  | w :: rest, cur =>
    if isContinuation w then
      match cur with
      | none => groupEntities rest (some (w.drop 2))
      | some s => groupEntities rest (some (s ++ w.drop 2))
    else
      match cur with
      | none => groupEntities rest (some w)
      | some s => s :: groupEntities rest (some w)

/-- `extract_entities` (src/agent_memory_server/extraction.py). The NER
pipeline call (`get_ner_model()` and `ner(text)`) is the external model,
passed as `ner`, producing the `result["word"]` strings or raising; the
surrounding `try`/`except Exception` returns `[]` on any error.
Deduplication is `list(set(entities))`: an unordered duplicate-free
list, modelled by `List.dedup`. -/
def extract_entities (ner : String → Except String (List String)) (text : String) :
    List String :=
  match ner text with
  | .error _ => []
  | .ok results => (groupEntities results none).dedup

/-- Concatenation of continuation tokens with their two-character
`"##"` marker stripped. -/
def stripJoin : List String → String
  | [] => ""
  | t :: ts => t.drop 2 ++ stripJoin ts

/-- The specification's reading of entity grouping, written from the
spec's words for comparison with `groupEntities` (refinement check
only): an entity is a token together with the run of continuation
tokens (prefixed by `"##"`) that immediately follows it, the marker
stripped and the pieces merged into the preceding token. -/
def specGroupEntities : List String → List String
  | [] => []
  | w :: rest =>
    (w ++ stripJoin (rest.takeWhile isContinuation))
      :: specGroupEntities (rest.dropWhile isContinuation)
termination_by l => l.length
decreasing_by
  simp only [List.length_cons]
  exact Nat.lt_succ_of_le (List.dropWhile_sublist _).length_le

/-! ## Topic extraction: `extract_topics_llm` and
`extract_topics_bertopic` in `src/agent_memory_server/extraction.py` -/

/-- `extract_topics_llm` (src/agent_memory_server/extraction.py), success
path of the completion call. `parsed` is the outcome of
`json.loads(...)["topics"]`: `none` when that raises
`JSONDecodeError`/`KeyError` (caught, `topics = []`), `some ts`
otherwise. The code then truncates: `if topics: topics = topics[:K]`. -/
def extract_topics_llm (parsed : Option (List String)) (num_topics : Nat) :
    List String :=
  match parsed with
  | none => []
  | some ts => if ts ≠ [] then ts.take num_topics else ts

/-- The `for i, topic_idx in enumerate(topic_indices)` loop of
`extract_topics_bertopic`: `i` is the enumeration counter; the loop
breaks when `_num_topics and i >= _num_topics` (Python truthiness:
`K ≠ 0`); the outlier index `-1` is skipped; otherwise *all* words of
`get_topic(idx)` are appended (`topics.extend([info[0] for info in
topic_info])`, guarded by `if topic_info:`). -/
def bertopicLoop (get_topic : Int → List (String × ℚ)) (K : Nat) :
    List Int → Nat → List String
  | [], _ => []
  | idx :: rest, i =>
    if K ≠ 0 ∧ K ≤ i then []
    else
      let tail := bertopicLoop get_topic K rest (i + 1)
      if idx = -1 then tail
      else
        match get_topic idx with
        | [] => tail
        | info => (info.map Prod.fst) ++ tail

/-- `extract_topics_bertopic` (src/agent_memory_server/extraction.py).
The BERTopic model is the external `get_topic` function
(`model.get_topic`, a list of `(word, probability)` pairs) together
with `topic_indices` (`model.transform([text])`); `K` is the resolved
`_num_topics`. -/
def extract_topics_bertopic (get_topic : Int → List (String × ℚ))
    (topic_indices : List Int) (K : Nat) : List String :=
  bertopicLoop get_topic K topic_indices 0

/-! ## Discrete memory extraction: `extract_discrete_memories` in
`src/agent_memory_server/extraction.py` -/

/-- The fields of `MemoryRecord`
(src/agent_memory_server/models.py) that discrete extraction reads or
writes. `discrete_memory_extracted` is the literal `"t"`/`"f"` flag;
time stamps, `pinned`, `access_count`, `memory_hash`, `event_date` are
never touched by the extraction code and are omitted. -/
structure MemoryRecord where
  id : String
  text : String
  session_id : Option String := none
  user_id : Option String := none
  «namespace» : Option String := none
  topics : Option (List String) := none
  entities : Option (List String) := none
  memory_type : String := "message"
  discrete_memory_extracted : String := "f"
  extracted_from : Option (List String) := none
deriving DecidableEq, Repr

/-- `memory.model_copy(update={"discrete_memory_extracted": "t"})`. -/
def markExtracted (m : MemoryRecord) : MemoryRecord :=
  { m with discrete_memory_extracted := "t" }

/-- One memory object of the JSON the LLM returns
(`{"memories": [{type, text, topics, entities}, ...]}`); `memory_type`,
`topics` and `entities` are read with `.get(..., default)`, so they may
be absent. -/
structure RawMemory where
  text : String
  memory_type : Option String := none
  topics : Option (List String) := none
  entities : Option (List String) := none
deriving DecidableEq, Repr

/-- `AsyncRetrying(stop=stop_after_attempt(3))` around the completion
call and JSON parse: `f n` is attempt `n`'s outcome (`none` when
`json.loads` or the response-shape assertions raise, which re-raise
into the retry loop). Up to three attempts are made; the first success
wins; after the third failure the retry loop raises to the caller. -/
def retry3 {α : Type} (f : Nat → Option α) : Except Unit α :=
  match f 0 with
  | some a => .ok a
  | none =>
    match f 1 with
    | some a => .ok a
    | none =>
      match f 2 with
      | some a => .ok a
      | none => .error ()

/-- The observable effects of one run of `extract_discrete_memories`:
`deleted` — ids passed to `adapter.delete_memories` (executed eagerly,
one call per empty record, in loop order); `llmCalls` — the source
records for which `client.create_chat_completion` was invoked;
`updated` — the records passed to `adapter.update_memories` (batched
after the loop, so empty when the run raised); `indexed` — the new
records passed to `index_long_term_memories` (also batched); `failed` —
whether the run raised to its caller. -/
structure ExtractResult where
  deleted : List String
  llmCalls : List MemoryRecord
  updated : List MemoryRecord
  indexed : List MemoryRecord
  failed : Bool
deriving DecidableEq, Repr

/-- Intermediate state of the `for memory in memories` loop. -/
structure LoopResult where
  deleted : List String
  llmCalls : List MemoryRecord
  newDiscrete : List RawMemory
  updatedAcc : List MemoryRecord
  failed : Bool
deriving DecidableEq, Repr

/-- The `for memory in memories` loop of `extract_discrete_memories`.
`oracle text n` is attempt `n` of the LLM completion-and-parse for the
prompt built from `text` (the prompt varies only in `memory.text`).
A record with empty `text` (`if not memory or not memory.text`; the
elements are pydantic `MemoryRecord`s, which are always truthy, so the
guard is emptiness of `text`) is deleted and skipped. Otherwise the
retry loop runs; persistent failure raises, aborting the loop — no
later record is processed and the batched updates never run. On success
the parsed memories are accumulated and the source record is queued for
the `discrete_memory_extracted="t"` update. -/
def extractLoop (oracle : String → Nat → Option (List RawMemory)) :
    List MemoryRecord → LoopResult
  | [] => ⟨[], [], [], [], false⟩
  | m :: rest =>
    if m.text = "" then
      let r := extractLoop oracle rest
      { r with deleted := m.id :: r.deleted }
    else
      match retry3 (oracle m.text) with
      | .error _ => ⟨[], [m], [], [], true⟩
      | .ok mems =>
        let r := extractLoop oracle rest
        { deleted := r.deleted
          llmCalls := m :: r.llmCalls
          newDiscrete := mems ++ r.newDiscrete
          updatedAcc := markExtracted m :: r.updatedAcc
          failed := r.failed }

/-- Construction of a long-term `MemoryRecord` from one extracted JSON
memory (the list comprehension at the end of
`extract_discrete_memories`): a fresh ULID id, the extracted `text`,
`memory_type` defaulting to `"episodic"`, `topics`/`entities`
defaulting to `[]`, and `discrete_memory_extracted="t"`. No other field
is passed, so `session_id`, `user_id`, `namespace` and `extracted_from`
take their model defaults (`None`). -/
def buildDiscreteRecord (fresh_id : String) (nm : RawMemory) : MemoryRecord :=
  { id := fresh_id
    text := nm.text
    memory_type := nm.memory_type.getD "episodic"
    topics := some (nm.topics.getD [])
    entities := some (nm.entities.getD [])
    discrete_memory_extracted := "t" }

/-- `extract_discrete_memories` (src/agent_memory_server/extraction.py)
on an explicit list of source records. `fresh_id n` models the `n`-th
`str(ulid.ULID())` drawn while building the new records. When the loop
raised, the eager deletions stand but neither batched call
(`update_memories`, `index_long_term_memories`) runs. -/
def extract_discrete_memories (oracle : String → Nat → Option (List RawMemory))
    (fresh_id : Nat → String) (memories : List MemoryRecord) : ExtractResult :=
  let r := extractLoop oracle memories
  if r.failed then
    ⟨r.deleted, r.llmCalls, [], [], true⟩
  else
    ⟨r.deleted, r.llmCalls, r.updatedAcc,
      r.newDiscrete.enum.map (fun p => buildDiscreteRecord (fresh_id p.1) p.2),
      false⟩

/-! ## Helper lemmas -/

theorem parseDocs_map_toRawDoc (l : List StoredDoc) :
    parseDocs (l.map toRawDoc) =
      l.map fun d => { role := d.role, content := d.content, dist := d.dist } := by
  induction l with
  | nil => rfl
  | cons d rest ih => simp [parseDocs, toRawDoc, ih]

theorem redisSearch_length_le (store : List StoredDoc) (q : RedisQuery) (limit : Nat) :
    (redisSearch store q limit).length ≤ limit := by
  cases q with
  | knn k => exact List.length_take_le _ _
  | range radius => exact List.length_take_le _ _

theorem redisSearch_sorted (store : List StoredDoc) (q : RedisQuery) (limit : Nat) :
    (redisSearch store q limit).Pairwise distLE := by
  cases q with
  | knn k =>
    exact ((List.sorted_insertionSort distLE store).sublist
      (List.take_sublist _ _)).sublist (List.take_sublist _ _)
  | range radius =>
    exact (List.sorted_insertionSort distLE _).sublist (List.take_sublist _ _)

/-! ## Claim theorems -/

/-- C3: for every search, the returned result list contains at most
`limit` entries and is sorted non-decreasing by `dist` (there is no
recency rerank in `search_messages`). -/
theorem search_messages_limit_and_sorted (store : List StoredDoc)
    (distance_threshold : Option ℚ) (limit : Nat) :
    (search_messages store distance_threshold limit).docs.length ≤ limit ∧
    (search_messages store distance_threshold limit).docs.Pairwise
      (fun a b => a.dist ≤ b.dist) := by
  unfold search_messages
  simp only [parseDocs_map_toRawDoc]
  constructor
  · rw [List.length_map]
    exact redisSearch_length_le store _ limit
  · exact List.pairwise_map.mpr (redisSearch_sorted store _ limit)

/-- C5 counterexample: with a supplied `distance_threshold` of `0`
(falsy in Python), `search_messages` takes the KNN branch and ignores
the threshold, so a search over a store holding one document at
distance `1/2` returns that document even though `1/2 ≤ 0` fails. -/
theorem search_messages_threshold_zero_cex :
    ((search_messages [{ role := "user", content := "hi", dist := 1/2 }]
        (some 0) 10).docs.map RedisearchResult.dist) = [1/2] ∧
    ¬((1 : ℚ)/2 ≤ 0) := by
  constructor
  · rfl
  · norm_num

/-- C5 amended: for every search in which a *nonzero* distance
threshold is supplied, every returned result has `dist` at most the
threshold (a threshold of `0` is treated as unset by the Python
truthiness test and the query falls back to plain KNN). -/
theorem search_messages_distance_threshold_le (store : List StoredDoc) (v : ℚ)
    (limit : Nat) (hv : v ≠ 0) :
    ∀ r ∈ (search_messages store (some v) limit).docs, r.dist ≤ v := by
  intro r hr
  have hq : buildQuery (some v) limit = .range v := by
    simp [buildQuery, hv]
  simp only [search_messages, hq, parseDocs_map_toRawDoc] at hr
  obtain ⟨d, hd, rfl⟩ := List.mem_map.mp hr
  have hmem : d ∈ (store.filter fun d => d.dist ≤ v).insertionSort distLE :=
    List.take_subset _ _ hd
  have hfil : d ∈ store.filter fun d => d.dist ≤ v :=
    (List.perm_insertionSort distLE _).subset hmem
  exact of_decide_eq_true (List.mem_filter.mp hfil).2

/-- C5 witness: the amended theorem applied to a one-document store with
threshold `1`. -/
theorem search_messages_distance_threshold_le_witness :
    ({ role := "u", content := "a", dist := 0 } : RedisearchResult).dist ≤ 1 := by
  refine search_messages_distance_threshold_le
    [{ role := "u", content := "a", dist := 0 }] 1 10 (by norm_num) _ ?_
  have h : (search_messages [{ role := "u", content := "a", dist := 0 }]
      (some 1) 10).docs = [{ role := "u", content := "a", dist := 0 }] := by decide
  rw [h]
  exact List.mem_singleton.mpr rfl

/-- C4 counterexample: `get_model_config` on a name absent from
`MODEL_CONFIGS` does not fail; it returns the `gpt-4o-mini`
configuration as a substitute. -/
theorem get_model_config_unknown_cex :
    get_model_config "nonexistent-model" = gpt4oMiniConfig ∧
    gpt4oMiniConfig.name ≠ "nonexistent-model" := by
  constructor
  · rfl
  · decide

/-- C4 amended: for every model name with no entry in `MODEL_CONFIGS`,
`get_model_config` proceeds with the substitute `gpt-4o-mini`
configuration (logging a warning) instead of failing; unknown model
names are only rejected earlier, by request-schema validation of the
`ModelNameLiteral` field. -/
theorem get_model_config_unknown_fallback (model_name : String)
    (h : MODEL_CONFIGS.lookup model_name = none) :
    get_model_config model_name = gpt4oMiniConfig := by
  unfold get_model_config
  rw [h]

/-- C4 witness: the amended theorem applied to a concrete unknown
model name. -/
theorem get_model_config_unknown_fallback_witness :
    MODEL_CONFIGS.lookup "nonexistent-model" = none ∧
    get_model_config "nonexistent-model" = gpt4oMiniConfig :=
  ⟨by decide, get_model_config_unknown_fallback "nonexistent-model" (by decide)⟩

/-- C9: for every list of input texts, the Anthropic client's
`create_embedding` raises (`NotImplementedError`) and never returns an
embedding array. -/
theorem anthropic_create_embedding_never_embeds (query_vec : List String) :
    AnthropicClientWrapper.create_embedding query_vec =
      Except.error
        "Anthropic does not provide an embedding API. Please use OpenAI for embeddings." :=
  rfl

/-- C8: for every input text, if the NER pipeline raises, then
`extract_entities` returns the empty list and raises nothing to its
caller. -/
theorem extract_entities_ner_error_empty
    (ner : String → Except String (List String)) (text : String) (e : String)
    (h : ner text = .error e) :
    extract_entities ner text = [] := by
  unfold extract_entities
  rw [h]

/-- C8 witness: the theorem applied to an NER pipeline that always
raises. -/
theorem extract_entities_ner_error_empty_witness :
    extract_entities (fun _ => Except.error "Model error") "Test message" = [] :=
  extract_entities_ner_error_empty _ "Test message" "Model error" rfl

theorem groupEntities_some (toks : List String) (s : String) :
    groupEntities toks (some s) =
      (s ++ stripJoin (toks.takeWhile isContinuation))
        :: specGroupEntities (toks.dropWhile isContinuation) := by
  induction toks generalizing s with
  | nil =>
    simp [groupEntities, stripJoin, specGroupEntities, String.append_empty]
  | cons t ts ih =>
    cases hp : isContinuation t with
    | true =>
      have h1 : groupEntities (t :: ts) (some s) =
          groupEntities ts (some (s ++ t.drop 2)) := by
        simp [groupEntities, hp]
      rw [h1, ih]
      simp [List.takeWhile_cons, List.dropWhile_cons, hp, stripJoin,
        String.append_assoc]
    | false =>
      have h1 : groupEntities (t :: ts) (some s) =
          s :: groupEntities ts (some t) := by
        simp [groupEntities, hp]
      rw [h1, ih]
      simp [List.takeWhile_cons, List.dropWhile_cons, hp, stripJoin,
        String.append_empty, specGroupEntities]

/-- C6: for every NER token list whose first token is not a
continuation, `extract_entities` groups tokens exactly as the
specification describes — each `"##"`-prefixed token, marker stripped,
merges into the preceding entity — and the returned list is
duplicate-free. -/
theorem extract_entities_merges_continuations (toks : List String) (text : String)
    (h : isContinuation (toks.headD "") = false) :
    extract_entities (fun _ => Except.ok toks) text =
      (specGroupEntities toks).dedup ∧
    (extract_entities (fun _ => Except.ok toks) text).Nodup := by
  have hg : groupEntities toks none = specGroupEntities toks := by
    cases toks with
    | nil => simp [groupEntities, specGroupEntities]
    | cons t ts =>
      have hp : isContinuation t = false := by simpa using h
      have h1 : groupEntities (t :: ts) none = groupEntities ts (some t) := by
        simp [groupEntities, hp]
      rw [h1, groupEntities_some, specGroupEntities]
  refine ⟨?_, ?_⟩
  · show (groupEntities toks none).dedup = _
    rw [hg]
  · show ((groupEntities toks none).dedup).Nodup
    exact List.nodup_dedup _

/-- C6 witness: the theorem applied to the token list
`["Mountain", "##View", "Google"]`, where the continuation merges into
`"MountainView"`. -/
theorem extract_entities_merges_continuations_witness :
    isContinuation (["Mountain", "##View", "Google"].headD "") = false ∧
    (extract_entities (fun _ => Except.ok ["Mountain", "##View", "Google"])
        "John works at Google in Mountain View" =
      (specGroupEntities ["Mountain", "##View", "Google"]).dedup) ∧
    extract_entities (fun _ => Except.ok ["Mountain", "##View", "Google"])
        "John works at Google in Mountain View" =
      ["MountainView", "Google"] :=
  ⟨by decide,
   (extract_entities_merges_continuations ["Mountain", "##View", "Google"]
      "John works at Google in Mountain View" (by decide)).1,
   by decide⟩

theorem extract_topics_llm_le (parsed : Option (List String)) (K : Nat) :
    (extract_topics_llm parsed K).length ≤ K := by
  cases parsed with
  | none => simp [extract_topics_llm]
  | some ts =>
    by_cases h : ts = []
    · simp [extract_topics_llm, h]
    · simp only [extract_topics_llm, h, ne_eq, not_false_eq_true, if_true]
      exact List.length_take_le _ _

theorem bertopicLoop_take (get_topic : Int → List (String × ℚ)) (K : Nat)
    (hK : K ≠ 0) (idxs : List Int) :
    ∀ i : Nat, bertopicLoop get_topic K idxs i =
      bertopicLoop get_topic K (idxs.take (K - i)) i := by
  induction idxs with
  | nil => intro i; rw [List.take_nil]
  | cons idx rest ih =>
    intro i
    by_cases hi : K ≤ i
    · have h0 : K - i = 0 := Nat.sub_eq_zero_of_le hi
      rw [h0, List.take_zero]
      simp [bertopicLoop, hK, hi]
    · have h1 : K - i = (K - (i + 1)) + 1 := by omega
      rw [h1, List.take_succ_cons]
      simp only [bertopicLoop, hK, hi, ne_eq, not_false_eq_true, and_false,
        false_and, if_false, and_true, true_and]
      rw [ih (i + 1)]

/-- C7 counterexample: with the BERTopic backend, one non-outlier topic
index and `K = 1` requested topic, the code extends the output with
*every* word of the topic, returning 2 labels. -/
theorem extract_topics_bertopic_over_k_cex :
    extract_topics_bertopic (fun _ => [("technology", 1), ("business", 1)]) [1] 1 =
      ["technology", "business"] ∧
    ¬((["technology", "business"] : List String).length ≤ 1) := by
  constructor
  · rfl
  · decide

/-- C7 amended: the LLM backend returns at most `K` topic labels
(`topics[:K]`); the BERTopic backend only bounds the number of topic
*indices* it processes by `K` (for `K > 0` the output depends only on
the first `K` indices) but returns every word of each processed topic,
so its label count can exceed `K`. -/
theorem extract_topics_at_most_k (parsed : Option (List String))
    (get_topic : Int → List (String × ℚ)) (topic_indices : List Int) (K : Nat)
    (hK : 0 < K) :
    (extract_topics_llm parsed K).length ≤ K ∧
    extract_topics_bertopic get_topic topic_indices K =
      extract_topics_bertopic get_topic (topic_indices.take K) K := by
  refine ⟨extract_topics_llm_le parsed K, ?_⟩
  unfold extract_topics_bertopic
  have h := bertopicLoop_take get_topic K (Nat.pos_iff_ne_zero.mp hK) topic_indices 0
  simpa using h

/-- C7 witness: the amended theorem applied with `K = 2`, three topic
indices and a one-word topic model. -/
theorem extract_topics_at_most_k_witness :
    (0 : Nat) < 2 ∧
    ((extract_topics_llm (some ["a", "b", "c"]) 2).length ≤ 2 ∧
     extract_topics_bertopic (fun _ => [("technology", 1)]) [1, 2, 3] 2 =
       extract_topics_bertopic (fun _ => [("technology", 1)]) [1, 2] 2) :=
  ⟨by decide,
   extract_topics_at_most_k (some ["a", "b", "c"])
     (fun _ => [("technology", 1)]) [1, 2, 3] 2 (by decide)⟩

theorem retry3_error_iff {α : Type} (f : Nat → Option α) :
    retry3 f = Except.error () ↔ f 0 = none ∧ f 1 = none ∧ f 2 = none := by
  cases h0 : f 0 with
  | some a => simp [retry3, h0]
  | none =>
    cases h1 : f 1 with
    | some a => simp [retry3, h0, h1]
    | none =>
      cases h2 : f 2 with
      | some a => simp [retry3, h0, h1, h2]
      | none => simp [retry3, h0, h1, h2]

theorem extractLoop_cons_empty (oracle : String → Nat → Option (List RawMemory))
    (m : MemoryRecord) (rest : List MemoryRecord) (ht : m.text = "") :
    extractLoop oracle (m :: rest) =
      { extractLoop oracle rest with
        deleted := m.id :: (extractLoop oracle rest).deleted } := by
  simp [extractLoop, ht]

theorem extractLoop_cons_error (oracle : String → Nat → Option (List RawMemory))
    (m : MemoryRecord) (rest : List MemoryRecord) (ht : ¬m.text = "")
    (hr : retry3 (oracle m.text) = Except.error ()) :
    extractLoop oracle (m :: rest) = ⟨[], [m], [], [], true⟩ := by
  simp [extractLoop, ht, hr]

theorem extractLoop_cons_ok (oracle : String → Nat → Option (List RawMemory))
    (m : MemoryRecord) (rest : List MemoryRecord) (mems : List RawMemory)
    (ht : ¬m.text = "") (hr : retry3 (oracle m.text) = Except.ok mems) :
    extractLoop oracle (m :: rest) =
      { deleted := (extractLoop oracle rest).deleted
        llmCalls := m :: (extractLoop oracle rest).llmCalls
        newDiscrete := mems ++ (extractLoop oracle rest).newDiscrete
        updatedAcc := markExtracted m :: (extractLoop oracle rest).updatedAcc
        failed := (extractLoop oracle rest).failed } := by
  simp [extractLoop, ht, hr]

theorem extractLoop_failed_iff (oracle : String → Nat → Option (List RawMemory))
    (ms : List MemoryRecord) :
    (extractLoop oracle ms).failed = true ↔
      ∃ m ∈ ms, m.text ≠ "" ∧ retry3 (oracle m.text) = Except.error () := by
  induction ms with
  | nil => simp [extractLoop]
  | cons m rest ih =>
    by_cases ht : m.text = ""
    · have hfail : (extractLoop oracle (m :: rest)).failed
          = (extractLoop oracle rest).failed := by
        rw [extractLoop_cons_empty oracle m rest ht]
      rw [hfail, ih]
      simp only [List.mem_cons]
      constructor
      · rintro ⟨x, hx, hp⟩
        exact ⟨x, Or.inr hx, hp⟩
      · rintro ⟨x, hx | hx, hp⟩
        · rw [hx] at hp
          exact absurd ht hp.1
        · exact ⟨x, hx, hp⟩
    · cases hr : retry3 (oracle m.text) with
      | error e =>
        cases e
        have hfail : (extractLoop oracle (m :: rest)).failed = true := by
          rw [extractLoop_cons_error oracle m rest ht hr]
        rw [hfail]
        constructor
        · intro _
          exact ⟨m, List.mem_cons_self m rest, ht, hr⟩
        · intro _
          rfl
      | ok mems =>
        have hfail : (extractLoop oracle (m :: rest)).failed
            = (extractLoop oracle rest).failed := by
          rw [extractLoop_cons_ok oracle m rest mems ht hr]
        rw [hfail, ih]
        simp only [List.mem_cons]
        constructor
        · rintro ⟨x, hx, hp⟩
          exact ⟨x, Or.inr hx, hp⟩
        · rintro ⟨x, hx | hx, hp⟩
          · rw [hx] at hp
            rw [hp.2] at hr
            cases hr
          · exact ⟨x, hx, hp⟩

theorem extract_discrete_failed_eq (oracle : String → Nat → Option (List RawMemory))
    (fresh_id : Nat → String) (memories : List MemoryRecord) :
    (extract_discrete_memories oracle fresh_id memories).failed =
      (extractLoop oracle memories).failed := by
  unfold extract_discrete_memories
  cases h : (extractLoop oracle memories).failed <;> simp [h]

/-- C1 counterexample: one nonempty source record whose LLM responses
never parse. The run raises to the caller (`failed = true`) and the
batched `update_memories` call never happens, so the record is *not*
marked `discrete_memory_extracted="t"` — contrary to the claim that it
would be marked anyway. -/
theorem extract_discrete_retry_failure_cex :
    (extract_discrete_memories (fun _ _ => none) (fun _ => "id0")
        [{ id := "m1", text := "hello" }]).failed = true ∧
    (extract_discrete_memories (fun _ _ => none) (fun _ => "id0")
        [{ id := "m1", text := "hello" }]).updated = [] := by
  decide

/-- C1 amended: JSON parsing is retried up to 3 times per source
record (the run fails exactly when some nonempty-text record's three
attempts all fail to parse); on persistent failure the exception
propagates to the caller and *no* record is marked as extracted — the
batched update never executes, so the source record keeps
`discrete_memory_extracted="f"` and will be picked up again by the next
run. -/
theorem extract_discrete_retry_propagates
    (oracle : String → Nat → Option (List RawMemory))
    (fresh_id : Nat → String) (memories : List MemoryRecord) :
    ((extract_discrete_memories oracle fresh_id memories).failed = true ↔
      ∃ m ∈ memories, m.text ≠ "" ∧
        oracle m.text 0 = none ∧ oracle m.text 1 = none ∧ oracle m.text 2 = none) ∧
    ((extract_discrete_memories oracle fresh_id memories).failed = true →
      (extract_discrete_memories oracle fresh_id memories).updated = []) := by
  constructor
  · rw [extract_discrete_failed_eq, extractLoop_failed_iff]
    exact exists_congr fun m => and_congr_right fun _ => and_congr_right fun _ =>
      retry3_error_iff (oracle m.text)
  · intro h
    rw [extract_discrete_failed_eq] at h
    simp [extract_discrete_memories, h]

/-- C1 witness: the amended theorem applied to a single record whose
three parse attempts all fail. -/
theorem extract_discrete_retry_propagates_witness :
    (extract_discrete_memories (fun _ _ => none) (fun _ => "id1")
        [{ id := "m9", text := "hi" }]).updated = [] :=
  (extract_discrete_retry_propagates (fun _ _ => none) (fun _ => "id1")
      [{ id := "m9", text := "hi" }]).2 (by decide)

/-- C2 counterexample: a source record scoped with `session_id="s1"`,
`user_id="u1"`, `namespace="ns1"` yields an output record whose
`session_id`, `user_id`, `namespace` and `extracted_from` are all
`None`: the scoping fields are not inherited and `extracted_from` does
not reference the source id. -/
theorem extract_discrete_inherit_cex :
    (extract_discrete_memories
        (fun _ _ => some [{ text := "User likes tea", memory_type := some "semantic" }])
        (fun _ => "newid")
        [{ id := "src1", text := "I like tea", session_id := some "s1",
           user_id := some "u1", «namespace» := some "ns1" }]).indexed.map
      (fun r => (r.session_id, r.user_id, r.«namespace», r.extracted_from)) =
      [(none, none, none, none)] ∧
    (some "s1" : Option String) ≠ none := by
  constructor
  · rfl
  · decide

/-- C2 amended: every output record of discrete extraction carries
`session_id = None`, `user_id = None`, `namespace = None` and
`extracted_from = None` regardless of the source record — the record
constructor at the end of `extract_discrete_memories` passes none of
these fields — while `discrete_memory_extracted` is `"t"`. -/
theorem extract_discrete_output_scoping
    (oracle : String → Nat → Option (List RawMemory))
    (fresh_id : Nat → String) (memories : List MemoryRecord) :
    ∀ r ∈ (extract_discrete_memories oracle fresh_id memories).indexed,
      r.session_id = none ∧ r.user_id = none ∧ r.«namespace» = none ∧
      r.extracted_from = none ∧ r.discrete_memory_extracted = "t" := by
  intro r hr
  cases h : (extractLoop oracle memories).failed with
  | true => simp [extract_discrete_memories, h] at hr
  | false =>
    simp only [extract_discrete_memories, h, Bool.false_eq_true, if_false,
      List.mem_map] at hr
    obtain ⟨p, hp, rfl⟩ := hr
    exact ⟨rfl, rfl, rfl, rfl, rfl⟩

/-- C2 witness: the amended theorem applied to a concrete run producing
one output record. -/
theorem extract_discrete_output_scoping_witness :
    (buildDiscreteRecord "newid2"
        { text := "User likes tea", memory_type := some "semantic" }).session_id
      = none ∧
    (buildDiscreteRecord "newid2"
        { text := "User likes tea", memory_type := some "semantic" }).user_id
      = none ∧
    (buildDiscreteRecord "newid2"
        { text := "User likes tea", memory_type := some "semantic" }).«namespace»
      = none ∧
    (buildDiscreteRecord "newid2"
        { text := "User likes tea", memory_type := some "semantic" }).extracted_from
      = none ∧
    (buildDiscreteRecord "newid2"
        { text := "User likes tea", memory_type := some "semantic"
          }).discrete_memory_extracted = "t" :=
  extract_discrete_output_scoping
    (fun _ _ => some [{ text := "User likes tea", memory_type := some "semantic" }])
    (fun _ => "newid2")
    [{ id := "src9", text := "I like tea" }]
    (buildDiscreteRecord "newid2"
      { text := "User likes tea", memory_type := some "semantic" })
    (by decide)

theorem extractLoop_llmCalls_nonempty
    (oracle : String → Nat → Option (List RawMemory)) (ms : List MemoryRecord) :
    ∀ c ∈ (extractLoop oracle ms).llmCalls, c.text ≠ "" := by
  induction ms with
  | nil => simp [extractLoop]
  | cons m rest ih =>
    intro c hc
    by_cases ht : m.text = ""
    · rw [extractLoop_cons_empty oracle m rest ht] at hc
      exact ih c hc
    · cases hr : retry3 (oracle m.text) with
      | error e =>
        cases e
        rw [extractLoop_cons_error oracle m rest ht hr] at hc
        rcases List.mem_cons.mp hc with rfl | hc2
        · exact ht
        · simp at hc2
      | ok mems =>
        rw [extractLoop_cons_ok oracle m rest mems ht hr] at hc
        rcases List.mem_cons.mp hc with rfl | hc2
        · exact ht
        · exact ih c hc2

theorem extractLoop_updated_nonempty
    (oracle : String → Nat → Option (List RawMemory)) (ms : List MemoryRecord) :
    ∀ u ∈ (extractLoop oracle ms).updatedAcc, u.text ≠ "" := by
  induction ms with
  | nil => simp [extractLoop]
  | cons m rest ih =>
    intro u hu
    by_cases ht : m.text = ""
    · rw [extractLoop_cons_empty oracle m rest ht] at hu
      exact ih u hu
    · cases hr : retry3 (oracle m.text) with
      | error e =>
        cases e
        rw [extractLoop_cons_error oracle m rest ht hr] at hu
        simp at hu
      | ok mems =>
        rw [extractLoop_cons_ok oracle m rest mems ht hr] at hu
        rcases List.mem_cons.mp hu with rfl | hu2
        · exact ht
        · exact ih u hu2

theorem extractLoop_deleted
    (oracle : String → Nat → Option (List RawMemory)) :
    ∀ ms : List MemoryRecord, (extractLoop oracle ms).failed = false →
      ∀ m ∈ ms, m.text = "" → m.id ∈ (extractLoop oracle ms).deleted := by
  intro ms
  induction ms with
  | nil =>
    intro _ m hm
    simp at hm
  | cons m rest ih =>
    intro hok x hx hxt
    by_cases ht : m.text = ""
    · rw [extractLoop_cons_empty oracle m rest ht] at hok ⊢
      rcases List.mem_cons.mp hx with rfl | hx2
      · exact List.mem_cons_self _ _
      · exact List.mem_cons_of_mem _ (ih hok x hx2 hxt)
    · cases hr : retry3 (oracle m.text) with
      | error e =>
        cases e
        rw [extractLoop_cons_error oracle m rest ht hr] at hok
        cases hok
      | ok mems =>
        rw [extractLoop_cons_ok oracle m rest mems ht hr] at hok ⊢
        rcases List.mem_cons.mp hx with rfl | hx2
        · exact absurd hxt ht
        · exact ih hok x hx2 hxt

/-- C10 counterexample: when an *earlier* record's extraction fails
persistently, the run aborts before reaching a later empty-text
record, which is then neither deleted nor otherwise touched — so not
every empty-text input record is deleted. -/
theorem extract_discrete_empty_text_cex :
    (extract_discrete_memories (fun _ _ => none) (fun _ => "id0")
        [{ id := "m1", text := "x" }, { id := "m2", text := "" }]).deleted = [] ∧
    ({ id := "m2", text := "" } : MemoryRecord).text = "" := by
  decide

/-- C10 amended: records with empty text are never sent to the LLM and
never marked as extracted, in every run; and in any run that does not
abort on an earlier persistent extraction failure, every empty-text
input record is deleted from the vector store. -/
theorem extract_discrete_empty_text_handling
    (oracle : String → Nat → Option (List RawMemory))
    (fresh_id : Nat → String) (memories : List MemoryRecord) :
    (∀ c ∈ (extract_discrete_memories oracle fresh_id memories).llmCalls,
        c.text ≠ "") ∧
    (∀ u ∈ (extract_discrete_memories oracle fresh_id memories).updated,
        u.text ≠ "") ∧
    ((extract_discrete_memories oracle fresh_id memories).failed = false →
      ∀ m ∈ memories, m.text = "" →
        m.id ∈ (extract_discrete_memories oracle fresh_id memories).deleted) := by
  have hcalls : (extract_discrete_memories oracle fresh_id memories).llmCalls
      = (extractLoop oracle memories).llmCalls := by
    unfold extract_discrete_memories
    cases h : (extractLoop oracle memories).failed <;> simp [h]
  have hdel : (extract_discrete_memories oracle fresh_id memories).deleted
      = (extractLoop oracle memories).deleted := by
    unfold extract_discrete_memories
    cases h : (extractLoop oracle memories).failed <;> simp [h]
  refine ⟨?_, ?_, ?_⟩
  · rw [hcalls]
    exact extractLoop_llmCalls_nonempty oracle memories
  · intro u hu
    cases h : (extractLoop oracle memories).failed with
    | true => simp [extract_discrete_memories, h] at hu
    | false =>
      simp only [extract_discrete_memories, h, Bool.false_eq_true, if_false] at hu
      exact extractLoop_updated_nonempty oracle memories u hu
  · intro hok m hm hmt
    rw [hdel]
    rw [extract_discrete_failed_eq] at hok
    exact extractLoop_deleted oracle memories hok m hm hmt

/-- C10 witness: the amended theorem applied to a run with one
empty-text record and one successfully extracted record. -/
theorem extract_discrete_empty_text_handling_witness :
    "a" ∈ (extract_discrete_memories (fun _ _ => some []) (fun _ => "id0")
        [{ id := "a", text := "" }, { id := "b", text := "x" }]).deleted :=
  (extract_discrete_empty_text_handling (fun _ _ => some []) (fun _ => "id0")
      [{ id := "a", text := "" }, { id := "b", text := "x" }]).2.2
    (by decide) { id := "a", text := "" } (by decide) rfl

end AgentMemory
